import Mathlib

/-!
Shallow embedding of `hydrus/core/HydrusThreading.py`: the thread registry,
the DAEMON worker loop, the `THREADCallToThread` queue worker, `SchedulableJob`
and its variants, and the `JobScheduler` dispatch loop.  Timestamps (Python
floats holding seconds) are modelled as rationals.  Concurrency is modelled by
making every interleaving-relevant observation (shutdown checks, controller
answers, random jitter draws) an explicit input of the embedded function.
-/

namespace HydrusThreading

/-- Modelled from the spec: `HydrusData.TimeHasPassedFloat` (the module
`HydrusData` is not part of the sources; the glossary defines the due time as
"the timestamp at or after which a job becomes eligible for dispatch").
`timeHasPassedFloat now t` is true when the instant `t` has been reached. -/
def timeHasPassedFloat (now t : ℚ) : Bool := decide (t ≤ now)

/-! ## Thread registry (`THREADS_TO_THREAD_INFO`) -/

/-- Threads are identified abstractly. -/
abbrev ThreadId := Nat

/-- The global `THREADS_TO_THREAD_INFO` dict: a thread's info is just its
`'shutting_down'` flag.  Insertion order is kept, as in a Python dict. -/
abbrev ThreadRegistry := List (ThreadId × Bool)

/-- First `'shutting_down'` entry stored for a thread, if any. -/
def lookupFlag (t : ThreadId) : ThreadRegistry → Option Bool
  | [] => none
  | (k, v) :: rest => if k = t then some v else lookupFlag t rest

/-- `GetThreadInfo`: create the info dict (with `shutting_down = False`) on
first lookup, then return the stored flag.  The periodic
`ClearOutDeadThreads` sweep it may trigger is modelled as a separate
registry operation (see `RegistryOp`). -/
def getThreadInfo (t : ThreadId) (reg : ThreadRegistry) : ThreadRegistry × Bool :=
  match lookupFlag t reg with
  | some b => (reg, b)
  | none => (reg ++ [(t, false)], false)

/-- `ClearOutDeadThreads`: drop every entry whose thread is no longer alive;
`alive` is the `thread.is_alive()` snapshot at sweep time. -/
def clearOutDeadThreads (alive : ThreadId → Bool) (reg : ThreadRegistry) : ThreadRegistry :=
  reg.filter (fun p => alive p.1)

/-- `ShutdownThread`: `GetThreadInfo(thread)` then set its flag to `True`
(`thread_info['shutting_down'] = True` mutates the dict entry in place). -/
def shutdownThread (t : ThreadId) (reg : ThreadRegistry) : ThreadRegistry :=
  ((getThreadInfo t reg).1).map (fun p => (p.1, if p.1 = t then true else p.2))

/-- The registry operations named by the spec's invariant. -/
inductive RegistryOp where
  | getInfo (t : ThreadId)
  | clearOutDead (alive : ThreadId → Bool)
  | shutdown (t : ThreadId)

def applyRegistryOp : RegistryOp → ThreadRegistry → ThreadRegistry
  | .getInfo t, reg => (getThreadInfo t reg).1
  | .clearOutDead alive, reg => clearOutDeadThreads alive reg
  | .shutdown t, reg => shutdownThread t reg

def applyRegistryOps (ops : List RegistryOp) (reg : ThreadRegistry) : ThreadRegistry :=
  ops.foldl (fun r op => applyRegistryOp op r) reg

/-- An operation keeps a given thread sweep-safe when any dead-thread sweep it
performs still sees that thread alive. -/
def opKeepsThread (t : ThreadId) : RegistryOp → Prop
  | .clearOutDead alive => alive t = true
  | _ => True

/-! ## `DAEMONWorker.run` -/

/-- Outcome of one invocation of a caller-supplied work callable. -/
inductive WorkCallResult where
  | ok
  | raisesShutdown
  | raisesOther
deriving DecidableEq, Repr

/-- The environment of one `DAEMONWorker.run` loop iteration: what each
cooperative shutdown checkpoint observes, and what the callable does.
`shutdownDuringPreCallWait` covers the `CheckIfThreadShuttingDown` polls
inside `_DoAWait(pre_call_wait)`, `shutdownDuringCanStartWait` the polls
inside `_WaitUntilCanStart`, and `shutdownDuringPeriodWait` the polls inside
the trailing `_DoAWait(period)`. -/
structure DaemonIterEnv where
  shutdownAtLoopTop : Bool
  shutdownDuringPreCallWait : Bool
  shutdownAfterPreCallWait : Bool
  shutdownDuringCanStartWait : Bool
  shutdownAfterCanStartWait : Bool
  callableResult : WorkCallResult
  shutdownDuringPeriodWait : Bool
deriving DecidableEq, Repr

/-- What one loop iteration does: terminate the thread (the `return`s and the
outer `except ShutdownException`) or continue looping; the flag records
whether the iteration logged/reported a callable exception. -/
inductive DaemonStep where
  | terminated (loggedError : Bool)
  | continues (loggedError : Bool)
deriving DecidableEq, Repr

/-- One iteration of the `while True` loop in `DAEMONWorker.run`. -/
def daemonWorkerIteration (e : DaemonIterEnv) : DaemonStep :=
  if e.shutdownAtLoopTop then .terminated false
  else if e.shutdownDuringPreCallWait then .terminated false
  else if e.shutdownAfterPreCallWait then .terminated false
  else if e.shutdownDuringCanStartWait then .terminated false
  else if e.shutdownAfterCanStartWait then .terminated false
  else
    match e.callableResult with
    | .raisesShutdown => .terminated false
    | .raisesOther =>
        if e.shutdownDuringPeriodWait then .terminated true else .continues true
    | .ok =>
        if e.shutdownDuringPeriodWait then .terminated false else .continues false

/-- No cooperative checkpoint of this iteration observes shutdown. -/
def envShutdownFree (e : DaemonIterEnv) : Bool :=
  !(e.shutdownAtLoopTop || e.shutdownDuringPreCallWait || e.shutdownAfterPreCallWait ||
    e.shutdownDuringCanStartWait || e.shutdownAfterCanStartWait || e.shutdownDuringPeriodWait)

/-- `DAEMONWorker.run` over a finite trace of iteration environments; `true`
means the worker is still in its loop after consuming the whole trace. -/
def daemonWorkerRun : List DaemonIterEnv → Bool
  | [] => true
  | e :: rest =>
    match daemonWorkerIteration e with
    | .terminated _ => false
    | .continues _ => daemonWorkerRun rest

/-! ## `THREADCallToThread` -/

/-- Python values relevant to the `queue.Queue.get` call: the positional
argument at the call site is the float literal `1.0`. -/
inductive PyValue where
  | pyNone
  | pyBool (b : Bool)
  | pyFloat (q : ℚ)
deriving DecidableEq, Repr

/-- Python truthiness of such a value. -/
def pyTruthy : PyValue → Bool
  | .pyNone => false
  | .pyBool b => b
  | .pyFloat q => decide (q ≠ 0)

/-- Modelled from the spec: the Python standard library signature
`queue.Queue.get(block=True, timeout=None)` (not part of the sources).  A
single positional argument binds to `block`, leaving `timeout = None`. -/
def queueGetBind (positional : PyValue) : PyValue × PyValue :=
  (positional, .pyNone)

/-- Behaviour of `queue.Queue.get` while the queue stays empty. -/
inductive GetOutcome where
  | blocksUntilItem
  | raisesEmptyAfter (t : ℚ)
  | raisesEmptyImmediately
deriving DecidableEq, Repr

/-- Modelled from the spec: `queue.Queue.get` semantics on a queue that stays
empty (Python standard library, not part of the sources): a falsy `block`
raises `queue.Empty` at once; a truthy `block` with a numeric `timeout`
raises `queue.Empty` after the timeout; a truthy `block` with `timeout=None`
blocks until an item arrives. -/
def getOnEmptyQueue (block timeout : PyValue) : GetOutcome :=
  if !pyTruthy block then .raisesEmptyImmediately
  else
    match timeout with
    | .pyFloat t => .raisesEmptyAfter t
    | _ => .blocksUntilItem

/-- The dequeue at the call site `self._queue.get( 1.0 )` in
`THREADCallToThread.run`, applied to an empty queue. -/
def callToThreadGetOutcome : GetOutcome :=
  let args := queueGetBind (.pyFloat 1)
  getOnEmptyQueue args.1 args.2

/-- Result of the guarded dequeue as seen by the surrounding `try`. -/
inductive DequeueResult where
  | item (u : Nat)
  | empty
deriving DecidableEq, Repr

/-- What `THREADCallToThread.run` does with the dequeue result: an item is
processed; `queue.Empty` hits the `except queue.Empty: continue` handler and
the loop retries. -/
inductive LoopAction where
  | proceedWithItem (u : Nat)
  | retryLoop
deriving DecidableEq, Repr

def ctHandleDequeue : DequeueResult → LoopAction
  | .item u => .proceedWithItem u
  | .empty => .retryLoop

/-- The `THREADCallToThread` state the claims observe: the busy flag and the
FIFO of submitted work units (opaquely numbered). -/
structure CallToThreadState where
  currently_working : Bool
  queued : List Nat
deriving DecidableEq, Repr

/-- `THREADCallToThread.__init__`: the busy flag starts `True` ("start off
true so new threads aren't used twice by two quick successive calls"). -/
def initCallToThread : CallToThreadState :=
  { currently_working := true, queued := [] }

/-- `THREADCallToThread.CurrentlyWorking`. -/
def ctCurrentlyWorking (s : CallToThreadState) : Bool := s.currently_working

/-- `THREADCallToThread.put`: mark busy, enqueue, set the wake event. -/
def ctPut (u : Nat) (s : CallToThreadState) : CallToThreadState :=
  { currently_working := true, queued := s.queued ++ [u] }

/-- One pass of the `THREADCallToThread.run` loop body.  With an empty queue
the inner wait loop just spins on the event (no state change).  Otherwise one
unit is dequeued and run; whatever the callable does, the `finally` block
clears the busy flag. -/
def ctRunIteration (result : WorkCallResult) (s : CallToThreadState) : CallToThreadState :=
  match s.queued with
  | [] => s
  | _ :: rest =>
    match result with
    | _ => { currently_working := false, queued := rest }

/-- Operations that can touch a `THREADCallToThread`'s state. -/
inductive CtOp where
  | put (u : Nat)
  | runIteration (result : WorkCallResult)
deriving DecidableEq, Repr

def ctApply : CtOp → CallToThreadState → CallToThreadState
  | .put u, s => ctPut u s
  | .runIteration r, s => ctRunIteration r s

def ctApplyOps (ops : List CtOp) (s : CallToThreadState) : CallToThreadState :=
  ops.foldl (fun s op => ctApply op s) s

/-! ## `SchedulableJob` -/

structure SchedulableJob where
  next_work_time : ℚ
  thread_slot_type : Option Nat
  should_delay_on_wakeup : Bool
  currently_working : Bool
  is_cancelled : Bool
deriving DecidableEq, Repr

/-- `SchedulableJob.__init__`. -/
def mkSchedulableJob (now initial_delay : ℚ) : SchedulableJob :=
  { next_work_time := now + initial_delay
    thread_slot_type := none
    should_delay_on_wakeup := false
    currently_working := false
    is_cancelled := false }

/-- `SchedulableJob.__lt__`, used by `bisect.insort` and `list.sort`. -/
def jobLT (a b : SchedulableJob) : Bool := decide (a.next_work_time < b.next_work_time)

/-- `SchedulableJob.IsDue`. -/
def IsDue (now : ℚ) (j : SchedulableJob) : Bool := timeHasPassedFloat now j.next_work_time

/-- `SchedulableJob.IsCancelled`. -/
def IsCancelled (j : SchedulableJob) : Bool := j.is_cancelled

/-- `SchedulableJob.Cancel` (it also notifies the scheduler via
`JobCancelled`, which sets the lazy cancel-filter flag). -/
def Cancel (j : SchedulableJob) : SchedulableJob := { j with is_cancelled := true }

/-- `SchedulableJob.Wake`. -/
def Wake (next_work_time : ℚ) (j : SchedulableJob) : SchedulableJob :=
  { j with next_work_time := next_work_time }

/-- `SchedulableJob.SlotOK`: `acquired` is the controller's answer to
`AcquireThreadSlot` and `jitter` the `random.random()` draw, both consulted
only when a slot type is set. -/
def SlotOK (now : ℚ) (acquired : Bool) (jitter : ℚ) (j : SchedulableJob) :
    Bool × SchedulableJob :=
  match j.thread_slot_type with
  | some _ =>
    if acquired then (true, j)
    else (false, { j with next_work_time := now + 10 + jitter })
  | none => (true, j)

/-- `SchedulableJob.StartWork`: no-op on a cancelled job; otherwise set
`currently_working` and boot the worker.  The boolean records whether
`_BootWorker` submitted `Work` to the worker pool. -/
def StartWork (j : SchedulableJob) : SchedulableJob × Bool :=
  if j.is_cancelled then (j, false)
  else ({ j with currently_working := true }, true)

/-- The wake-from-sleep polling loop at the top of `SchedulableJob.Work`:
each observation is a pair `(JustWokeFromSleep(), IsThreadShuttingDown())`;
the loop returns early exactly when a poll sees the sleep state still set and
shutdown in progress.  An exhausted observation list means the sleep state
cleared. -/
def wakeDelayObservesShutdown : List (Bool × Bool) → Bool
  | [] => false
  | (justWokeFromSleep, shuttingDown) :: rest =>
    if justWokeFromSleep then
      if shuttingDown then true else wakeDelayObservesShutdown rest
    else false

/-- Environment of one `SchedulableJob.Work` execution. -/
structure WorkEnv where
  sleepObservations : List (Bool × Bool)
  callableResult : WorkCallResult
deriving Repr

/-- What one `SchedulableJob.Work` execution did: the post-state of the job,
whether the work callable was invoked, whether the `finally` block released a
thread slot, and the exception (if any) propagating out. -/
structure WorkOutcome where
  job : SchedulableJob
  workInvoked : Bool
  slotReleased : Bool
  raised : Option WorkCallResult
deriving DecidableEq, Repr

/-- `SchedulableJob.Work`.  On the early-`return` path (delayed wakeup with
shutdown observed) the callable never runs; either way the `finally` block
releases any slot and clears `currently_working`.  A callable exception is
re-raised after the `finally` block. -/
def Work (env : WorkEnv) (j : SchedulableJob) : WorkOutcome :=
  if j.should_delay_on_wakeup && wakeDelayObservesShutdown env.sleepObservations then
    { job := { j with currently_working := false }
      workInvoked := false
      slotReleased := j.thread_slot_type.isSome
      raised := none }
  else
    { job := { j with currently_working := false }
      workInvoked := true
      slotReleased := j.thread_slot_type.isSome
      raised :=
        match env.callableResult with
        | .ok => none
        | .raisesShutdown => some .raisesShutdown
        | .raisesOther => some .raisesOther }

/-! ## `SingleJob` -/

structure SingleJob extends SchedulableJob where
  work_complete : Bool
deriving DecidableEq, Repr

/-- `SingleJob.__init__`. -/
def mkSingleJob (now initial_delay : ℚ) : SingleJob :=
  { mkSchedulableJob now initial_delay with work_complete := false }

/-- `SingleJob.IsWorkComplete`. -/
def IsWorkComplete (sj : SingleJob) : Bool := sj.work_complete

/-- `SingleJob.Work`: run the base `SchedulableJob.Work`, then set
`work_complete` — but the set is reached only when the base call returns
normally; a propagating exception skips it. -/
def SingleJobWork (env : WorkEnv) (sj : SingleJob) : SingleJob × WorkOutcome :=
  let r := Work env sj.toSchedulableJob
  match r.raised with
  | none => ({ r.job with work_complete := true }, r)
  | some _ => ({ r.job with work_complete := sj.work_complete }, r)

/-! ## `JobScheduler` -/

/-- `bisect.insort` on a list ordered by `SchedulableJob.__lt__`: insert
after any entries comparing equal (right bisection). -/
def insort (x : SchedulableJob) : List SchedulableJob → List SchedulableJob
  | [] => [x]
  | a :: rest => if jobLT x a then x :: a :: rest else a :: insort x rest

/-- `JobScheduler.AddJob` (it also sets the `_new_job_arrived` event). -/
def AddJob (job : SchedulableJob) (waiting : List SchedulableJob) : List SchedulableJob :=
  insort job waiting

/-- `JobScheduler._FilterCancelled`. -/
def FilterCancelled (waiting : List SchedulableJob) : List SchedulableJob :=
  waiting.filter (fun job => !(IsCancelled job))

/-- The non-strict comparison induced by `SchedulableJob.__lt__`, as a stable
sort keyed on `__lt__` orders elements: `a` may stay before `b` iff
`not (b < a)`. -/
def jobLE (a b : SchedulableJob) : Bool := !(jobLT b a)

/-- `JobScheduler._SortWaiting`: `self._waiting.sort()`, a stable sort by
`__lt__`. -/
def SortWaiting (waiting : List SchedulableJob) : List SchedulableJob :=
  waiting.mergeSort jobLE

/-- Sorted ascending by `next_work_time` — the pending-collection invariant. -/
def JobSorted (l : List SchedulableJob) : Prop :=
  l.Pairwise (fun a b => a.next_work_time ≤ b.next_work_time)

/-- The `while True` loop of `JobScheduler._StartWork`.  `started` accumulates
the jobs on which `StartWork` was called (its length is the `jobs_started`
counter).  `acquire k` / `jitter k` are the controller's answer and the
`random.random()` draw consumed by the `k`-th `AcquireThreadSlot` call; the
loop runs within one lock-held dispatch phase, so no external mutation
interleaves.  `fuel` bounds the number of loop iterations. -/
def startWorkLoop (now : ℚ) (acquire : Nat → Bool) (jitter : Nat → ℚ) :
    Nat → Nat → List SchedulableJob → List SchedulableJob →
    List SchedulableJob × List SchedulableJob
  | 0, _, waiting, started => (waiting, started)
  | fuel + 1, k, waiting, started =>
    match waiting with
    | [] => ([], started)
    | next_job :: rest =>
      if 10 ≤ started.length then (next_job :: rest, started)
      else if IsDue now next_job then
        if IsCancelled next_job then
          startWorkLoop now acquire jitter fuel k rest started
        else
          let consumesSlot := next_job.thread_slot_type.isSome
          let res := SlotOK now (acquire k) (jitter k) next_job
          let k' := if consumesSlot then k + 1 else k
          if res.1 then
            startWorkLoop now acquire jitter fuel k' rest (started ++ [(StartWork res.2).1])
          else
            startWorkLoop now acquire jitter fuel k' (insort res.2 rest) started
      else (next_job :: rest, started)

/-- `JobScheduler._StartWork`: one dispatch phase, starting from
`jobs_started = 0`.  Returns the remaining pending collection and the list of
jobs started this phase. -/
def JobSchedulerStartWork (now : ℚ) (acquire : Nat → Bool) (jitter : Nat → ℚ)
    (fuel : Nat) (waiting : List SchedulableJob) :
    List SchedulableJob × List SchedulableJob :=
  startWorkLoop now acquire jitter fuel 0 waiting []

/-! ## Helper lemmas -/

theorem mem_insort {y x : SchedulableJob} :
    ∀ {l : List SchedulableJob}, y ∈ insort x l ↔ y = x ∨ y ∈ l := by
  intro l
  induction l with
  | nil => simp [insort]
  | cons a rest ih =>
    by_cases hlt : jobLT x a
    · simp [insort, hlt]
    · simp only [insort, hlt, Bool.false_eq_true, if_false, List.mem_cons, ih]
      tauto

theorem insort_sorted (x : SchedulableJob) :
    ∀ {l : List SchedulableJob}, JobSorted l → JobSorted (insort x l) := by
  intro l
  induction l with
  | nil => intro _; simp [insort, JobSorted]
  | cons a rest ih =>
    intro h
    rw [JobSorted, List.pairwise_cons] at h
    obtain ⟨ha, hrest⟩ := h
    by_cases hlt : jobLT x a
    · rw [jobLT, decide_eq_true_eq] at hlt
      simp only [insort, jobLT, decide_eq_true_eq, hlt, if_true]
      rw [JobSorted, List.pairwise_cons]
      refine ⟨?_, List.Pairwise.cons ha hrest⟩
      intro b hb
      rcases List.mem_cons.mp hb with rfl | hb
      · exact le_of_lt hlt
      · exact le_trans (le_of_lt hlt) (ha b hb)
    · rw [jobLT, decide_eq_true_eq, not_lt] at hlt
      simp only [insort, jobLT, decide_eq_true_eq, not_lt.mpr hlt, if_false]
      rw [JobSorted, List.pairwise_cons]
      refine ⟨?_, ih hrest⟩
      intro b hb
      rcases mem_insort.mp hb with rfl | hb
      · exact hlt
      · exact ha b hb

theorem lookupFlag_append {t : ThreadId} {b : Bool} :
    ∀ {reg : ThreadRegistry} (xs : ThreadRegistry), lookupFlag t reg = some b →
      lookupFlag t (reg ++ xs) = some b := by
  intro reg
  induction reg with
  | nil => intro xs h; simp [lookupFlag] at h
  | cons p rest ih =>
    intro xs h
    obtain ⟨k, v⟩ := p
    by_cases hk : k = t
    · simp_all [lookupFlag]
    · simp only [lookupFlag, hk, if_false, List.cons_append] at h ⊢
      exact ih xs h

theorem lookupFlag_append_none {t : ThreadId} :
    ∀ {reg : ThreadRegistry} (xs : ThreadRegistry), lookupFlag t reg = none →
      lookupFlag t (reg ++ xs) = lookupFlag t xs := by
  intro reg
  induction reg with
  | nil => intro xs _; rfl
  | cons p rest ih =>
    intro xs h
    obtain ⟨k, v⟩ := p
    by_cases hk : k = t
    · simp [lookupFlag, hk] at h
    · simp only [lookupFlag, hk, if_false, List.cons_append] at h ⊢
      exact ih xs h

theorem lookupFlag_getThreadInfo (t' : ThreadId) {t : ThreadId} {reg : ThreadRegistry}
    (h : lookupFlag t reg = some true) :
    lookupFlag t (getThreadInfo t' reg).1 = some true := by
  unfold getThreadInfo
  cases hl : lookupFlag t' reg with
  | some b => simpa using h
  | none => simpa using lookupFlag_append [(t', false)] h

theorem lookupFlag_filter_alive (alive : ThreadId → Bool) {t : ThreadId}
    (ha : alive t = true) :
    ∀ {reg : ThreadRegistry}, lookupFlag t reg = some true →
      lookupFlag t (clearOutDeadThreads alive reg) = some true := by
  intro reg
  induction reg with
  | nil => intro h; simp [lookupFlag] at h
  | cons p rest ih =>
    intro h
    obtain ⟨k, v⟩ := p
    by_cases hk : k = t
    · subst hk
      simp only [lookupFlag, if_true, Option.some.injEq] at h
      simp [clearOutDeadThreads, ha, lookupFlag, h]
    · simp only [lookupFlag, hk, if_false] at h
      by_cases hal : alive k
      · simpa [clearOutDeadThreads, hal, lookupFlag, hk] using ih h
      · simpa [clearOutDeadThreads, hal] using ih h

theorem lookupFlag_setTrue (t' : ThreadId) {t : ThreadId} :
    ∀ {reg : ThreadRegistry}, lookupFlag t reg = some true →
      lookupFlag t (reg.map (fun p => (p.1, if p.1 = t' then true else p.2))) = some true := by
  intro reg
  induction reg with
  | nil => intro h; simp [lookupFlag] at h
  | cons p rest ih =>
    intro h
    obtain ⟨k, v⟩ := p
    by_cases hk : k = t
    · subst hk
      simp only [lookupFlag, if_true, Option.some.injEq] at h
      by_cases hk' : k = t'
      · simp [hk', lookupFlag]
      · simp [hk', lookupFlag, h]
    · simp only [lookupFlag, hk, if_false] at h
      simpa [lookupFlag, hk] using ih h

theorem lookupFlag_setTrue_self (t : ThreadId) :
    ∀ {reg : ThreadRegistry} {b : Bool}, lookupFlag t reg = some b →
      lookupFlag t (reg.map (fun p => (p.1, if p.1 = t then true else p.2))) = some true := by
  intro reg
  induction reg with
  | nil => intro b h; simp [lookupFlag] at h
  | cons p rest ih =>
    intro b h
    obtain ⟨k, v⟩ := p
    by_cases hk : k = t
    · subst hk
      simp [lookupFlag]
    · simp only [lookupFlag, hk, if_false] at h
      simpa [hk, lookupFlag] using ih h

theorem shutdownThread_sets (t : ThreadId) (reg : ThreadRegistry) :
    lookupFlag t (shutdownThread t reg) = some true := by
  unfold shutdownThread getThreadInfo
  cases hl : lookupFlag t reg with
  | some b => exact lookupFlag_setTrue_self t hl
  | none =>
    refine lookupFlag_setTrue_self t (b := false) ?_
    rw [lookupFlag_append_none [(t, false)] hl]
    simp [lookupFlag]

theorem shutdownThread_keeps {t t' : ThreadId} {reg : ThreadRegistry}
    (h : lookupFlag t reg = some true) :
    lookupFlag t (shutdownThread t' reg) = some true := by
  unfold shutdownThread
  exact lookupFlag_setTrue t' (lookupFlag_getThreadInfo t' h)

theorem registry_flag_stays (t : ThreadId) :
    ∀ (ops : List RegistryOp) (reg : ThreadRegistry),
      lookupFlag t reg = some true → (∀ op ∈ ops, opKeepsThread t op) →
      lookupFlag t (applyRegistryOps ops reg) = some true := by
  intro ops
  induction ops with
  | nil => intro reg h _; exact h
  | cons op rest ih =>
    intro reg h hops
    have hop : opKeepsThread t op := hops op (List.mem_cons_self op rest)
    have hrest : ∀ o ∈ rest, opKeepsThread t o := fun o ho => hops o (List.mem_cons_of_mem op ho)
    cases op with
    | getInfo t' =>
      exact ih _ (lookupFlag_getThreadInfo t' h) hrest
    | clearOutDead alive =>
      exact ih _ (lookupFlag_filter_alive alive hop h) hrest
    | shutdown t' =>
      exact ih _ (shutdownThread_keeps h) hrest

theorem SlotOK_is_cancelled (now : ℚ) (acquired : Bool) (jitter : ℚ) (j : SchedulableJob) :
    ((SlotOK now acquired jitter j).2).is_cancelled = j.is_cancelled := by
  rcases h : j.thread_slot_type with _ | s
  · simp [SlotOK, h]
  · cases acquired <;> simp [SlotOK, h]

theorem StartWork_is_cancelled (j : SchedulableJob) :
    ((StartWork j).1).is_cancelled = j.is_cancelled := by
  unfold StartWork
  by_cases h : j.is_cancelled <;> simp [h]

theorem startWorkLoop_started_le (now : ℚ) (acquire : Nat → Bool) (jitter : Nat → ℚ) :
    ∀ (fuel k : Nat) (waiting started : List SchedulableJob), started.length ≤ 10 →
      ((startWorkLoop now acquire jitter fuel k waiting started).2).length ≤ 10 := by
  intro fuel
  induction fuel with
  | zero => intro k waiting started h; exact h
  | succ fuel ih =>
    intro k waiting started h
    cases waiting with
    | nil => exact h
    | cons next rest =>
      by_cases h10 : 10 ≤ started.length
      · simpa [startWorkLoop, h10] using h
      · have hlt : started.length < 10 := Nat.lt_of_not_le h10
        by_cases hdue : IsDue now next
        · by_cases hcanc : IsCancelled next
          · simpa [startWorkLoop, h10, hdue, hcanc] using ih k rest started h
          · cases hres : (SlotOK now (acquire k) (jitter k) next).1
            · simp only [startWorkLoop, h10, if_false, hdue, if_true, hcanc,
                Bool.false_eq_true, hres]
              exact ih _ _ _ h
            · simp only [startWorkLoop, h10, if_false, hdue, if_true, hcanc,
                Bool.false_eq_true, hres]
              exact ih _ _ _ (by simp only [List.length_append, List.length_cons,
                List.length_nil]; omega)
        · simpa [startWorkLoop, h10, hdue] using h

theorem startWorkLoop_started_not_cancelled (now : ℚ) (acquire : Nat → Bool) (jitter : Nat → ℚ) :
    ∀ (fuel k : Nat) (waiting started : List SchedulableJob),
      (∀ j ∈ started, j.is_cancelled = false) →
      ∀ j ∈ (startWorkLoop now acquire jitter fuel k waiting started).2, j.is_cancelled = false := by
  intro fuel
  induction fuel with
  | zero => intro k waiting started h; exact h
  | succ fuel ih =>
    intro k waiting started h
    cases waiting with
    | nil => exact h
    | cons next rest =>
      by_cases h10 : 10 ≤ started.length
      · simpa [startWorkLoop, h10] using h
      · by_cases hdue : IsDue now next
        · by_cases hcanc : IsCancelled next
          · simp only [startWorkLoop, h10, if_false, hdue, if_true, hcanc]
            exact ih _ _ _ h
          · have hnc : next.is_cancelled = false := by simpa [IsCancelled] using hcanc
            cases hres : (SlotOK now (acquire k) (jitter k) next).1
            · simp only [startWorkLoop, h10, if_false, hdue, if_true, hcanc,
                Bool.false_eq_true, hres]
              exact ih _ _ _ h
            · simp only [startWorkLoop, h10, if_false, hdue, if_true, hcanc,
                Bool.false_eq_true, hres]
              refine ih _ _ _ ?_
              intro j hj
              rcases List.mem_append.mp hj with hj | hj
              · exact h j hj
              · rcases List.mem_singleton.mp hj with rfl
                rw [StartWork_is_cancelled, SlotOK_is_cancelled]
                exact hnc
        · simpa [startWorkLoop, h10, hdue] using h

theorem startWorkLoop_mem_not_due (now : ℚ) (acquire : Nat → Bool) (jitter : Nat → ℚ) :
    ∀ (fuel k : Nat) (waiting started : List SchedulableJob) (j : SchedulableJob),
      j ∈ waiting → IsDue now j = false →
      j ∈ (startWorkLoop now acquire jitter fuel k waiting started).1 := by
  intro fuel
  induction fuel with
  | zero => intro k waiting started j hj _; exact hj
  | succ fuel ih =>
    intro k waiting started j hj hnotdue
    cases waiting with
    | nil => exact hj
    | cons next rest =>
      by_cases h10 : 10 ≤ started.length
      · simpa [startWorkLoop, h10] using hj
      · by_cases hdue : IsDue now next
        · have hjr : j ∈ rest := by
            rcases List.mem_cons.mp hj with rfl | hjr
            · rw [hdue] at hnotdue; cases hnotdue
            · exact hjr
          by_cases hcanc : IsCancelled next
          · simp only [startWorkLoop, h10, if_false, hdue, if_true, hcanc]
            exact ih _ _ _ _ hjr hnotdue
          · cases hres : (SlotOK now (acquire k) (jitter k) next).1
            · simp only [startWorkLoop, h10, if_false, hdue, if_true, hcanc,
                Bool.false_eq_true, hres]
              exact ih _ _ _ _ (mem_insort.mpr (Or.inr hjr)) hnotdue
            · simp only [startWorkLoop, h10, if_false, hdue, if_true, hcanc,
                Bool.false_eq_true, hres]
              exact ih _ _ _ _ hjr hnotdue
        · simpa [startWorkLoop, h10, hdue] using hj

theorem startWorkLoop_sorted (now : ℚ) (acquire : Nat → Bool) (jitter : Nat → ℚ) :
    ∀ (fuel k : Nat) (waiting started : List SchedulableJob), JobSorted waiting →
      JobSorted (startWorkLoop now acquire jitter fuel k waiting started).1 := by
  intro fuel
  induction fuel with
  | zero => intro k waiting started h; exact h
  | succ fuel ih =>
    intro k waiting started h
    cases waiting with
    | nil => exact h
    | cons next rest =>
      have htail : JobSorted rest := (List.pairwise_cons.mp h).2
      by_cases h10 : 10 ≤ started.length
      · simpa [startWorkLoop, h10] using h
      · by_cases hdue : IsDue now next
        · by_cases hcanc : IsCancelled next
          · simp only [startWorkLoop, h10, if_false, hdue, if_true, hcanc]
            exact ih _ _ _ htail
          · cases hres : (SlotOK now (acquire k) (jitter k) next).1
            · simp only [startWorkLoop, h10, if_false, hdue, if_true, hcanc,
                Bool.false_eq_true, hres]
              exact ih _ _ _ (insort_sorted _ htail)
            · simp only [startWorkLoop, h10, if_false, hdue, if_true, hcanc,
                Bool.false_eq_true, hres]
              exact ih _ _ _ htail
        · simpa [startWorkLoop, h10, hdue] using h

theorem jobLE_trans : ∀ (a b c : SchedulableJob), jobLE a b → jobLE b c → jobLE a c := by
  intro a b c hab hbc
  simp only [jobLE, jobLT, Bool.not_eq_true', decide_eq_false_iff_not, not_lt] at *
  exact le_trans hab hbc

theorem jobLE_total : ∀ (a b : SchedulableJob), jobLE a b || jobLE b a := by
  intro a b
  simp only [jobLE, jobLT, Bool.or_eq_true, Bool.not_eq_true', decide_eq_false_iff_not, not_lt]
  exact le_total a.next_work_time b.next_work_time

theorem SortWaiting_sorted (w : List SchedulableJob) : JobSorted (SortWaiting w) := by
  have h := List.sorted_mergeSort jobLE_trans jobLE_total w
  rw [JobSorted]
  refine h.imp ?_
  intro a b hab
  simpa [jobLE, jobLT, not_lt] using hab

theorem startWorkLoop_step_slot_fail (now : ℚ) (acquire : Nat → Bool) (jitter : Nat → ℚ)
    (fuel k : Nat) (next : SchedulableJob) (rest started : List SchedulableJob)
    (h10 : ¬ 10 ≤ started.length) (hdue : IsDue now next = true)
    (hcanc : IsCancelled next = false)
    (hres : (SlotOK now (acquire k) (jitter k) next).1 = false) :
    startWorkLoop now acquire jitter (fuel + 1) k (next :: rest) started =
      startWorkLoop now acquire jitter fuel
        (if next.thread_slot_type.isSome then k + 1 else k)
        (insort (SlotOK now (acquire k) (jitter k) next).2 rest) started := by
  simp only [startWorkLoop, h10, if_false, hdue, if_true, hcanc, Bool.false_eq_true, hres]

/-! ## Claim theorems -/

/-- C1: a job cancelled before its due time is never dispatched: every job a
dispatch phase starts is uncancelled (cancelled jobs popped in `_StartWork`
are silently dropped), `_FilterCancelled` removes every cancelled job from
the pending collection, and `StartWork` on a cancelled job is a no-op that
never boots a worker — so a cancelled job's work callable is never submitted
to the pool. -/
theorem cancelled_job_never_dispatched :
    (∀ (now : ℚ) (acquire : Nat → Bool) (jitter : Nat → ℚ) (fuel : Nat)
        (waiting : List SchedulableJob),
      ((JobSchedulerStartWork now acquire jitter fuel waiting).2).all
        (fun j => !j.is_cancelled) = true) ∧
    (∀ waiting : List SchedulableJob,
      (FilterCancelled waiting).all (fun j => !j.is_cancelled) = true) ∧
    (∀ j : SchedulableJob, IsCancelled (Cancel j) = true) ∧
    (∀ j : SchedulableJob, StartWork (Cancel j) = (Cancel j, false)) := by
  refine ⟨?_, ?_, fun j => rfl, ?_⟩
  · intro now acquire jitter fuel waiting
    rw [List.all_eq_true]
    intro j hj
    have h := startWorkLoop_started_not_cancelled now acquire jitter fuel 0 waiting []
      (by intro j hj; cases hj) j hj
    simp [h]
  · intro waiting
    rw [List.all_eq_true]
    intro j hj
    have h := (List.mem_filter.mp hj).2
    simpa [IsCancelled] using h
  · intro j
    rfl

/-- C2: one dispatch phase (`JobScheduler._StartWork`) starts at most 10
jobs, however many due jobs, popped-and-dropped cancelled jobs or
admission-failed reinsertions it sees. -/
theorem dispatch_phase_cap_ten (now : ℚ) (acquire : Nat → Bool) (jitter : Nat → ℚ)
    (fuel : Nat) (waiting : List SchedulableJob) :
    ((JobSchedulerStartWork now acquire jitter fuel waiting).2).length ≤ 10 :=
  startWorkLoop_started_le now acquire jitter fuel 0 waiting []
    (by simp)

/-- C3: `SlotOK` admits any job without a slot type unchanged; with a slot
type and a failed `AcquireThreadSlot` it returns false and reschedules the
job to `now + 10 + jitter` (within `[now + 10, now + 11)` for a jitter draw
in `[0,1)`), strictly after the old due time whenever the job was due; and
the dispatch loop reinserts the admission-failed job into the pending
collection instead of dropping it. -/
theorem slot_admission_retry (now jit : ℚ) (acq : Bool) (j : SchedulableJob) :
    (j.thread_slot_type = none → SlotOK now acq jit j = (true, j)) ∧
    (∀ s : Nat, j.thread_slot_type = some s →
      SlotOK now true jit j = (true, j) ∧
      (SlotOK now false jit j).1 = false ∧
      ((SlotOK now false jit j).2).next_work_time = now + 10 + jit ∧
      (0 ≤ jit → jit < 1 →
        now + 10 ≤ ((SlotOK now false jit j).2).next_work_time ∧
        ((SlotOK now false jit j).2).next_work_time < now + 11) ∧
      (0 ≤ jit → IsDue now j = true →
        j.next_work_time < ((SlotOK now false jit j).2).next_work_time)) ∧
    (∀ (acquire : Nat → Bool) (jitter : Nat → ℚ) (fuel : Nat)
        (rest : List SchedulableJob),
      IsDue now j = true → IsCancelled j = false → j.thread_slot_type.isSome = true →
      acquire 0 = false → 0 ≤ jitter 0 →
      { j with next_work_time := now + 10 + jitter 0 } ∈
        (JobSchedulerStartWork now acquire jitter (fuel + 1) (j :: rest)).1) := by
  refine ⟨?_, ?_, ?_⟩
  · intro h
    simp [SlotOK, h]
  · intro s hs
    refine ⟨by simp [SlotOK, hs], by simp [SlotOK, hs], by simp [SlotOK, hs], ?_, ?_⟩
    · intro h0 h1
      simp only [SlotOK, hs, Bool.false_eq_true, if_false]
      constructor <;> linarith
    · intro h0 hdue
      have hle : j.next_work_time ≤ now := by
        simpa [IsDue, timeHasPassedFloat] using hdue
      simp only [SlotOK, hs, Bool.false_eq_true, if_false]
      linarith
  · intro acquire jitter fuel rest hdue hcanc hslot hacq hjit
    rcases Option.isSome_iff_exists.mp hslot with ⟨s, hs⟩
    have hres1 : (SlotOK now (acquire 0) (jitter 0) j).1 = false := by
      simp [SlotOK, hs, hacq]
    have hres2 : (SlotOK now (acquire 0) (jitter 0) j).2 =
        { j with next_work_time := now + 10 + jitter 0 } := by
      simp [SlotOK, hs, hacq]
    have hnotdue : IsDue now { j with next_work_time := now + 10 + jitter 0 } = false := by
      simp only [IsDue, timeHasPassedFloat, decide_eq_false_iff_not]
      intro hle
      linarith
    rw [JobSchedulerStartWork,
      startWorkLoop_step_slot_fail now acquire jitter fuel 0 j rest []
        (by simp) hdue hcanc hres1, hres2]
    exact startWorkLoop_mem_not_due now acquire jitter fuel _ _ []
      { j with next_work_time := now + 10 + jitter 0 }
      (mem_insort.mpr (Or.inl rfl)) hnotdue

/-- C3 witness: a due, uncancelled job with slot type `0` whose acquisition
fails with jitter draw `0` is reinserted at `now + 10 + 0`. -/
theorem slot_admission_retry_witness :
    ({ next_work_time := (0:ℚ) + 10 + 0, thread_slot_type := some 0,
       should_delay_on_wakeup := false, currently_working := false,
       is_cancelled := false } : SchedulableJob) ∈
      (JobSchedulerStartWork 0 (fun _ => false) (fun _ => 0) (0 + 1)
        [{ next_work_time := 0, thread_slot_type := some 0,
           should_delay_on_wakeup := false, currently_working := false,
           is_cancelled := false }]).1 :=
  (slot_admission_retry 0 0 false
    { next_work_time := 0, thread_slot_type := some 0, should_delay_on_wakeup := false,
      currently_working := false, is_cancelled := false }).2.2
    (fun _ => false) (fun _ => 0) 0 [] rfl rfl rfl rfl (le_refl 0)

/-- C4 counterexample: a `SingleJob` whose work callable raises a
non-shutdown exception completes one execution (the callable was invoked and
the exception propagates out of `Work`), yet `work_complete` is NOT set —
`SingleJob.Work` only reaches `self._work_complete.set()` when the base call
returns normally.  This refutes "set ... regardless of success, failure, or
internal exception". -/
theorem single_job_exception_skips_completion :
    (SingleJobWork ⟨[], WorkCallResult.raisesOther⟩ (mkSingleJob 0 0)).2.workInvoked = true ∧
    (SingleJobWork ⟨[], WorkCallResult.raisesOther⟩ (mkSingleJob 0 0)).2.raised =
      some WorkCallResult.raisesOther ∧
    IsWorkComplete (SingleJobWork ⟨[], WorkCallResult.raisesOther⟩ (mkSingleJob 0 0)).1 =
      false :=
  ⟨rfl, rfl, rfl⟩

/-- C4 (amended): `IsWorkComplete` is false on a fresh `SingleJob`; it
becomes true after an execution whose base `Work` call returns without
raising; an exception propagating out of the work callable leaves
`work_complete` unchanged (so still false on first execution); and once set
it never reverts to false. -/
theorem single_job_completion (env : WorkEnv) (sj : SingleJob) :
    (∀ now d : ℚ, IsWorkComplete (mkSingleJob now d) = false) ∧
    ((Work env sj.toSchedulableJob).raised = none →
      IsWorkComplete (SingleJobWork env sj).1 = true) ∧
    (∀ e, (Work env sj.toSchedulableJob).raised = some e →
      IsWorkComplete (SingleJobWork env sj).1 = IsWorkComplete sj) ∧
    (IsWorkComplete sj = true → IsWorkComplete (SingleJobWork env sj).1 = true) := by
  refine ⟨fun now d => rfl, ?_, ?_, ?_⟩
  · intro h
    simp [SingleJobWork, IsWorkComplete, h]
  · intro e h
    simp [SingleJobWork, IsWorkComplete, h]
  · intro h
    simp only [IsWorkComplete] at h
    cases hr : (Work env sj.toSchedulableJob).raised <;>
      simp [SingleJobWork, IsWorkComplete, hr, h]

/-- C4 witness: a successful execution of a fresh `SingleJob` sets
`work_complete`. -/
theorem single_job_completion_witness :
    IsWorkComplete (SingleJobWork ⟨[], WorkCallResult.ok⟩ (mkSingleJob 0 0)).1 = true :=
  (single_job_completion ⟨[], WorkCallResult.ok⟩ (mkSingleJob 0 0)).2.1 rfl

/-- C5: the pending collection's sortedness (ascending `next_work_time`) is
preserved by `AddJob`'s `bisect.insort` insertion, by the order-preserving
`_FilterCancelled` removal, is (re-)established by the `_SortWaiting` sort
pass, and is preserved across a whole `_StartWork` dispatch phase including
its admission-failure reinsertion. -/
theorem pending_sorted_invariant :
    (∀ (j : SchedulableJob) (w : List SchedulableJob),
      JobSorted w → JobSorted (AddJob j w)) ∧
    (∀ w : List SchedulableJob, JobSorted w → JobSorted (FilterCancelled w)) ∧
    (∀ w : List SchedulableJob, JobSorted (SortWaiting w)) ∧
    (∀ (now : ℚ) (acquire : Nat → Bool) (jitter : Nat → ℚ) (fuel : Nat)
        (w : List SchedulableJob),
      JobSorted w → JobSorted (JobSchedulerStartWork now acquire jitter fuel w).1) := by
  refine ⟨?_, ?_, SortWaiting_sorted, ?_⟩
  · intro j w h
    exact insort_sorted j h
  · intro w h
    exact List.Pairwise.filter _ h
  · intro now acquire jitter fuel w h
    exact startWorkLoop_sorted now acquire jitter fuel 0 w [] h

/-- C5 witness: inserting into the (sorted) empty pending collection yields a
sorted collection. -/
theorem pending_sorted_invariant_witness :
    JobSorted (AddJob (mkSchedulableJob 0 0) []) :=
  pending_sorted_invariant.1 (mkSchedulableJob 0 0) [] List.Pairwise.nil

/-- C9: with `should_delay_on_wakeup` set and shutdown observed during the
wake-from-sleep polling loop, `Work` returns early: the work callable is
never invoked and no exception propagates, yet the cleanup still runs (slot
released iff a slot type is set, `currently_working` cleared) — and for a
`SingleJob` the `work_complete` signal is nevertheless set, so
`IsWorkComplete` becomes true without the work action ever executing. -/
theorem delayed_wakeup_shutdown_path (env : WorkEnv) (sj : SingleJob)
    (hdelay : sj.toSchedulableJob.should_delay_on_wakeup = true)
    (hobs : wakeDelayObservesShutdown env.sleepObservations = true) :
    (SingleJobWork env sj).2.workInvoked = false ∧
    (SingleJobWork env sj).2.raised = none ∧
    (SingleJobWork env sj).2.slotReleased = sj.toSchedulableJob.thread_slot_type.isSome ∧
    ((SingleJobWork env sj).2.job).currently_working = false ∧
    IsWorkComplete (SingleJobWork env sj).1 = true := by
  have hw : Work env sj.toSchedulableJob =
      { job := { sj.toSchedulableJob with currently_working := false }
        workInvoked := false
        slotReleased := sj.toSchedulableJob.thread_slot_type.isSome
        raised := none } := by
    simp [Work, hdelay, hobs]
  refine ⟨?_, ?_, ?_, ?_, ?_⟩ <;> simp [SingleJobWork, IsWorkComplete, hw]

/-- C9 witness: a delay-on-wakeup `SingleJob` whose poll sees
`JustWokeFromSleep` with shutdown in progress reports itself complete
without the callable having run. -/
theorem delayed_wakeup_shutdown_path_witness :
    (SingleJobWork ⟨[(true, true)], WorkCallResult.ok⟩
      { toSchedulableJob :=
          { mkSchedulableJob 0 0 with should_delay_on_wakeup := true }
        work_complete := false }).2.workInvoked = false ∧
    IsWorkComplete (SingleJobWork ⟨[(true, true)], WorkCallResult.ok⟩
      { toSchedulableJob :=
          { mkSchedulableJob 0 0 with should_delay_on_wakeup := true }
        work_complete := false }).1 = true := by
  have h := delayed_wakeup_shutdown_path ⟨[(true, true)], WorkCallResult.ok⟩
    { toSchedulableJob := { mkSchedulableJob 0 0 with should_delay_on_wakeup := true }
      work_complete := false } rfl rfl
  exact ⟨h.1, h.2.2.2.2⟩

/-- C6: in `DAEMONWorker.run`, a non-shutdown exception from the work
callable is caught inside the loop, logged/reported, and the loop continues
to its period wait; an iteration terminates the thread only when some
cooperative checkpoint observed shutdown or the callable raised the shutdown
signal; hence a run whose trace is shutdown-free and whose callable never
raises the shutdown signal keeps the worker alive through the whole trace. -/
theorem daemon_worker_survives_callable_exceptions :
    (∀ e : DaemonIterEnv, envShutdownFree e = true →
      e.callableResult = WorkCallResult.raisesOther →
      daemonWorkerIteration e = DaemonStep.continues true) ∧
    (∀ (e : DaemonIterEnv) (b : Bool), daemonWorkerIteration e = DaemonStep.terminated b →
      envShutdownFree e = false ∨ e.callableResult = WorkCallResult.raisesShutdown) ∧
    (∀ trace : List DaemonIterEnv,
      (∀ e ∈ trace, envShutdownFree e = true ∧
        e.callableResult ≠ WorkCallResult.raisesShutdown) →
      daemonWorkerRun trace = true) := by
  have hfree : ∀ e : DaemonIterEnv, envShutdownFree e = true →
      e.shutdownAtLoopTop = false ∧ e.shutdownDuringPreCallWait = false ∧
      e.shutdownAfterPreCallWait = false ∧ e.shutdownDuringCanStartWait = false ∧
      e.shutdownAfterCanStartWait = false ∧ e.shutdownDuringPeriodWait = false := by
    intro e h
    have h' := h
    simp only [envShutdownFree, Bool.not_eq_true', Bool.or_eq_false_iff] at h'
    tauto
  have hcont : ∀ e : DaemonIterEnv, envShutdownFree e = true →
      e.callableResult ≠ WorkCallResult.raisesShutdown →
      daemonWorkerIteration e = DaemonStep.continues
        (decide (e.callableResult = WorkCallResult.raisesOther)) := by
    intro e h hns
    obtain ⟨h1, h2, h3, h4, h5, h6⟩ := hfree e h
    cases hc : e.callableResult
    · simp [daemonWorkerIteration, h1, h2, h3, h4, h5, h6, hc]
    · exact absurd hc hns
    · simp [daemonWorkerIteration, h1, h2, h3, h4, h5, h6, hc]
  refine ⟨?_, ?_, ?_⟩
  · intro e h hother
    have := hcont e h (by rw [hother]; intro hx; cases hx)
    rw [this, hother]
    rfl
  · intro e b h
    by_cases hf : envShutdownFree e = true
    · by_cases hs : e.callableResult = WorkCallResult.raisesShutdown
      · exact Or.inr hs
      · rw [hcont e hf hs] at h
        cases h
    · exact Or.inl (by simpa using hf)
  · intro trace h
    induction trace with
    | nil => rfl
    | cons e rest ih =>
      have he := h e (List.mem_cons_self e rest)
      have hrest := fun e' he' => h e' (List.mem_cons_of_mem e he')
      rw [daemonWorkerRun, hcont e he.1 he.2]
      exact ih hrest

/-- C6 witness: an iteration with no shutdown observation whose callable
raises a non-shutdown exception logs the error and continues the loop. -/
theorem daemon_worker_survives_witness :
    daemonWorkerIteration
      ⟨false, false, false, false, false, WorkCallResult.raisesOther, false⟩ =
      DaemonStep.continues true :=
  daemon_worker_survives_callable_exceptions.1
    ⟨false, false, false, false, false, WorkCallResult.raisesOther, false⟩ rfl rfl

/-- C7: the dequeue at `self._queue.get( 1.0 )` binds `1.0` to the `block`
parameter, not `timeout`, so on an empty queue it blocks indefinitely and
`queue.Empty` is never raised there — unlike the 1-second-timeout call the
claim (and the surrounding comment) describe, which would raise `Empty`
after 1 second; the `except queue.Empty` handler itself does retry the loop
(`continue`) as claimed. -/
theorem call_to_thread_dequeue_has_no_timeout :
    callToThreadGetOutcome = GetOutcome.blocksUntilItem ∧
    getOnEmptyQueue (PyValue.pyBool true) (PyValue.pyFloat 1) =
      GetOutcome.raisesEmptyAfter 1 ∧
    ctHandleDequeue DequeueResult.empty = LoopAction.retryLoop :=
  ⟨rfl, rfl, rfl⟩

/-- C8 counterexample: after `ShutdownThread(t)`, if `t` dies and a
`ClearOutDeadThreads` sweep removes its entry, a later `GetThreadInfo(t)`
recreates the entry fresh and the lookup observes `shutting_down == False`
again — refuting "a lookup of that thread's info never observes
`shutting_down == false` again". -/
theorem shutdown_flag_reset_counterexample :
    (getThreadInfo 0 (applyRegistryOps
      [RegistryOp.clearOutDead (fun _ => false)]
      (shutdownThread 0 []))).2 = false :=
  rfl

/-- C8 (amended): once `ShutdownThread` sets a thread's flag, no sequence of
registry operations in which every `ClearOutDeadThreads` sweep still sees
that thread alive can clear it: the stored flag stays `true` and every
lookup observes `true`.  (Only the dead-entry sweep followed by a fresh
`GetThreadInfo` can produce a `false` observation again.) -/
theorem shutdown_flag_sticky (t : ThreadId) (reg : ThreadRegistry)
    (ops : List RegistryOp) (hops : ∀ op ∈ ops, opKeepsThread t op) :
    lookupFlag t (applyRegistryOps ops (shutdownThread t reg)) = some true ∧
    (getThreadInfo t (applyRegistryOps ops (shutdownThread t reg))).2 = true := by
  have h := registry_flag_stays t ops (shutdownThread t reg) (shutdownThread_sets t reg) hops
  exact ⟨h, by simp [getThreadInfo, h]⟩

/-- C8 witness: with the thread alive at the sweep, lookups after
`ShutdownThread` keep observing `true`. -/
theorem shutdown_flag_sticky_witness :
    (getThreadInfo 0 (applyRegistryOps
      [RegistryOp.getInfo 0, RegistryOp.clearOutDead (fun _ => true), RegistryOp.shutdown 1]
      (shutdownThread 0 []))).2 = true := by
  refine (shutdown_flag_sticky 0 []
    [RegistryOp.getInfo 0, RegistryOp.clearOutDead (fun _ => true), RegistryOp.shutdown 1]
    ?_).2
  intro op hop
  rcases List.mem_cons.mp hop with rfl | hop
  · trivial
  rcases List.mem_cons.mp hop with rfl | hop
  · rfl
  rcases List.mem_cons.mp hop with rfl | hop
  · trivial
  · cases hop

theorem ctApplyOps_no_run_busy :
    ∀ (ops : List CtOp) (s : CallToThreadState), s.currently_working = true →
      (∀ r, CtOp.runIteration r ∉ ops) →
      (ctApplyOps ops s).currently_working = true := by
  intro ops
  induction ops with
  | nil => intro s hs _; exact hs
  | cons op rest ih =>
    intro s hs h
    cases op with
    | put u => exact ih (ctPut u s) rfl (fun r hr => h r (List.mem_cons_of_mem _ hr))
    | runIteration r => exact absurd (List.mem_cons_self _ _) (h r)

/-- C10: a freshly constructed `THREADCallToThread` reports
`CurrentlyWorking() == true` before any submission, and the busy flag can
only have become false through a run-loop iteration's guaranteed `finally`
step after it dequeued an item — `put` only ever sets it. -/
theorem fresh_worker_reports_busy :
    ctCurrentlyWorking initCallToThread = true ∧
    ∀ ops : List CtOp,
      ctCurrentlyWorking (ctApplyOps ops initCallToThread) = false →
      ∃ r, CtOp.runIteration r ∈ ops := by
  refine ⟨rfl, ?_⟩
  intro ops h
  by_contra hcon
  push_neg at hcon
  have hbusy := ctApplyOps_no_run_busy ops initCallToThread rfl hcon
  rw [ctCurrentlyWorking, hbusy] at h
  cases h

/-- C10 witness: after a submission and one run-loop iteration the flag is
false, and indeed the operation list contains a run iteration. -/
theorem fresh_worker_reports_busy_witness :
    ∃ r, CtOp.runIteration r ∈ [CtOp.put 0, CtOp.runIteration WorkCallResult.ok] :=
  fresh_worker_reports_busy.2 [CtOp.put 0, CtOp.runIteration WorkCallResult.ok] rfl

end HydrusThreading
